import Mathlib

/-!
Shallow embedding of the core of `eolina-rs`, a small string-manipulation
language interpreter, together with proofs checking its natural-language
specification against the code.

Conventions of the embedding:
* Rust `usize` is modelled as `Nat`, `isize` as `Int` (the programs involved
  never approach machine-word bounds, and the source performs no wrapping
  arithmetic on them).
* Rust `String` / `&str` payloads are modelled as `List Char`; the source only
  ever manipulates ASCII program text, for which byte indices and character
  indices coincide.
* Rust `Result<T, E>` is `Except E T`, `Option<T>` is `Option T`.
* A Rust `panic!` (including out-of-bounds `rotate_left` and `unwrap` of
  `None`) is modelled by returning `none` from an `Option`-valued function.
-/

namespace Eolina

/-! ## `src/helper/range.rs` -/

/--
`EolinaIndex` (src/helper/range.rs): a range bound, either absolute from the
front (`Start`) or a magnitude from the back (`End`), kept separate so that
`-0` (`End 0`) stays distinct from `Start 0`.
-/
inductive EolinaIndex where
  | Start (n : Nat)
  | End (n : Nat)
  deriving DecidableEq, Repr

/-- `EolinaIndex::as_isize`: `Start idx ↦ idx`, `End idx ↦ -idx`. -/
def EolinaIndex.as_isize : EolinaIndex → Int
  | .Start idx => (idx : Int)
  | .End idx => -(idx : Int)

/-- `IndexError` (src/helper/range.rs): relative index, absolute value, length. -/
inductive IndexError where
  | OutOfTargetRange (idx : EolinaIndex) (abs : Int) (len : Nat)
  deriving DecidableEq, Repr

/--
`EolinaIndex::as_usize`: converts the bound into an absolute index for a
target of length `len`, or reports `OutOfTargetRange`.
-/
def EolinaIndex.as_usize (self : EolinaIndex) (len : Nat) : Except IndexError Nat :=
  match self with
  | .Start idx =>
    if idx ≤ len then .ok idx
    else .error (.OutOfTargetRange self self.as_isize len)
  | .End idx =>
    if idx ≤ len then .ok (len - idx)
    else .error (.OutOfTargetRange self ((len : Int) + self.as_isize) len)

/-- `EolinaIndex::from_components`: `from_back` selects `End`, else `Start`. -/
def EolinaIndex.from_components (from_back : Bool) (value : Nat) : EolinaIndex :=
  if from_back then .End value else .Start value

/-- `impl From<isize> for EolinaIndex`: negative means from the back. -/
def EolinaIndex.ofInt (int : Int) : EolinaIndex :=
  if int < 0 then .End int.natAbs else .Start int.toNat

/-- `impl Display for EolinaIndex`: `Start n` as `n`, `End n` as `-n`. -/
def EolinaIndex.displayStr : EolinaIndex → String
  | .Start idx => toString idx
  | .End idx => "-" ++ toString idx

/--
`EolinaRange` (src/helper/range.rs): optional inclusive start and optional
exclusive end bound.  The source field named `end` is written `«end»` here.
-/
structure EolinaRange where
  start : Option EolinaIndex
  «end» : Option EolinaIndex
  deriving DecidableEq, Repr

/-- `RangeError` (src/helper/range.rs). -/
inductive RangeError where
  | IncompatibleBounds (abs : EolinaRange) (valid : EolinaRange)
  | OutOfTargetRange (given : EolinaRange) (abs : EolinaRange) (valid : EolinaRange)
  deriving DecidableEq, Repr

/-- `EolinaRange::components`: build a range from parsed `(sign, digits)` pairs. -/
def EolinaRange.components (start «end» : Option (Bool × Nat)) : EolinaRange :=
  { start := start.map fun p => EolinaIndex.from_components p.1 p.2
    «end» := «end».map fun p => EolinaIndex.from_components p.1 p.2 }

/-- `impl From<Range<isize>> for EolinaRange` (via `From<isize>` on each bound). -/
def EolinaRange.ofIntRange (s e : Int) : EolinaRange :=
  { start := some (EolinaIndex.ofInt s), «end» := some (EolinaIndex.ofInt e) }

/-- `impl From<Range<usize>> for EolinaRange` (via `From<usize>`, i.e. `Start`). -/
def EolinaRange.ofNatRange (s e : Nat) : EolinaRange :=
  { start := some (.Start s), «end» := some (.Start e) }

/-- The closure `idx_map` inside `EolinaRange::as_range`. -/
def idx_map (len : Nat) : EolinaIndex → Int
  | .Start idx => (idx : Int)
  | .End idx => (len : Int) - (idx : Int)

/-- The closure `abs_check_map` inside `EolinaRange::as_range`. -/
def abs_check_map (len : Nat) (abs : Int) : Except Int Nat :=
  if 0 ≤ abs ∧ abs ≤ (len : Int) then .ok abs.toNat else .error abs

/--
`EolinaRange::as_range`: resolves both bounds independently (start defaults
to `0`, end defaults to `len`), reporting `OutOfTargetRange` if either bound
falls outside `0..=len` and `IncompatibleBounds` if the resolved start
exceeds the resolved end.  The concrete Rust `Range<usize>` result is
modelled as a pair `(lower, upper)`.
-/
def EolinaRange.as_range (self : EolinaRange) (len : Nat) :
    Except RangeError (Nat × Nat) :=
  let abs_lower : Except Int Nat :=
    ((self.start.map (idx_map len)).map (abs_check_map len)).getD (.ok 0)
  let abs_upper : Except Int Nat :=
    ((self.«end».map (idx_map len)).map (abs_check_map len)).getD (.ok len)
  let valid : EolinaRange := EolinaRange.ofNatRange 0 len
  match abs_lower, abs_upper with
  | .ok ok_, .error err =>
    .error (.OutOfTargetRange self (EolinaRange.ofIntRange (ok_ : Int) err) valid)
  | .error err, .ok ok_ =>
    .error (.OutOfTargetRange self (EolinaRange.ofIntRange err (ok_ : Int)) valid)
  | .error err_l, .error err_u =>
    .error (.OutOfTargetRange self (EolinaRange.ofIntRange err_l err_u) valid)
  | .ok ok_l, .ok ok_u =>
    if ok_l > ok_u then
      .error (.IncompatibleBounds (EolinaRange.ofIntRange (ok_l : Int) (ok_u : Int)) valid)
    else
      .ok (ok_l, ok_u)

/-- `impl Display for EolinaRange`: `|s.e|` with either bound optional. -/
def EolinaRange.displayStr (self : EolinaRange) : String :=
  "|" ++ (match self.start with | some b => b.displayStr | none => "")
    ++ "." ++ (match self.«end» with | some b => b.displayStr | none => "")
    ++ "|"

/-! ## `src/program/value.rs` -/

/-- `Kind` (src/program/value.rs): the discriminant of a `Value`. -/
inductive Kind where
  | String
  | StringVec
  | Bool
  deriving DecidableEq, Repr

/--
`Value` (src/program/value.rs): the runtime-tagged union.  Rust `String`
payloads are modelled as `List Char` (the interpreter works on ASCII text).
-/
inductive Value where
  | String (s : List Char)
  | StringVec (v : List (List Char))
  | Bool (b : Bool)
  deriving DecidableEq, Repr

/-- `Value::kind`. -/
def Value.kind : Value → Kind
  | .String _ => .String
  | .StringVec _ => .StringVec
  | .Bool _ => .Bool

/--
`impl Display for Value` (src/program/value.rs lines 79-99): a `String`
renders raw; a `StringVec` renders its first element followed by a newline
(`writeln!`), then every further element preceded by a single space; a `Bool`
renders through Rust's `Display for bool`, i.e. `true` / `false`.
-/
def displayValue : Value → String
  | .String inner => String.mk inner
  | .StringVec inner =>
    match inner with
    | [] => ""
    | first :: rest =>
      String.mk first ++ "\n" ++ String.join (rest.map fun s => " " ++ String.mk s)
  | .Bool inner => if inner then "true" else "false"

/-! ## `src/program/err.rs` (partially reconstructed)

The `Error` enum actually used by `src/program/func.rs` and
`src/program/context.rs` (with variants `ArgMismatch(ArgMismatchError)`,
`Mismatch`, `QueueTooShort` and `From<RangeError>`) is not present in the
snapshot; only an older revision of `err.rs` and the call sites are. -/

/--
Modelled from the spec: the program `Error` enum is missing from the
snapshot (only its call sites in `func.rs` / `context.rs` exist).  Following
the spec's error taxonomy `ArgMismatch(expectedKinds, actualKind)`,
`Mismatch(leftKind, rightKind)`, `QueueTooShort(needed, have)` and the
call sites `Error::ArgMismatch(ArgMismatchError::new(&[..], kind))`,
`Error::Mismatch(k1, k2)`, `Error::QueueTooShort(N, len)` and the `?`
conversion from `RangeError` used by `slice`.
-/
inductive Error where
  | ArgMismatch (expected : List Kind) (actual : Kind)
  | Mismatch (left right : Kind)
  | QueueTooShort (needed got : Nat)
  | Range (e : RangeError)
  deriving DecidableEq, Repr

/-! ## `src/program/func.rs` -/

/--
`func::concat`: concatenates two values of the same (string-like) kind; the
match arms are translated in source order, so the `(x, Bool)` arm takes
precedence over the `(Bool, x)` arm.
-/
def concat (input1 input2 : Value) : Except Error Value :=
  match input1, input2 with
  | .String string1, .String string2 => .ok (.String (string1 ++ string2))
  | .StringVec vec1, .StringVec vec2 => .ok (.StringVec (vec1 ++ vec2))
  | x, .Bool _ => .error (.ArgMismatch [.String, .StringVec] x.kind)
  | .Bool _, x => .error (.ArgMismatch [.String, .StringVec] x.kind)
  | x, y => .error (.Mismatch x.kind y.kind)

/--
`func::slice`: resolves the range against the value's length and returns the
subslice.  Rust's `string[lower..upper]` / `vec[lower..upper]` is
`(·.drop lower).take (upper - lower)`, which is total here because
`as_range` only returns `lower ≤ upper ≤ len`.
-/
def slice (input : Value) (range : EolinaRange) : Except Error Value :=
  match (match input with
        | .String inner => Except.ok inner.length
        | .StringVec inner => Except.ok inner.length
        | x => Except.error (Error.ArgMismatch [Kind.String] x.kind)) with
  | .error e => .error e
  | .ok len =>
    match range.as_range len with
    | .error e => .error (Error.Range e)
    | .ok r =>
      match input with
      | .String string => .ok (.String ((string.drop r.1).take (r.2 - r.1)))
      | .StringVec vec => .ok (.StringVec ((vec.drop r.1).take (r.2 - r.1)))
      | x => .error (.ArgMismatch [Kind.String, Kind.StringVec] x.kind)

/-! ## `src/program/context.rs` (queue operations)

The value queue is a `VecDeque<Value>` modelled as a `List Value` whose head
is the front.  A Rust panic is modelled as `none`. -/

/--
Popping `n` values one at a time off the front of the queue, as the loop in
`Context::pop_queue` does with `pop_front().unwrap()`; `none` models the
panic of `unwrap` on an empty queue.  Returns the popped values in order
together with the remaining queue.
-/
def popFrontN : Nat → List Value → Option (List Value × List Value)
  | 0, queue => some ([], queue)
  | _ + 1, [] => none
  | n + 1, value :: rest =>
    (popFrontN n rest).map fun p => (value :: p.1, p.2)

/--
`Context::pop_queue::<N>`: checks the queue length first and reports
`QueueTooShort(N, len)` (leaving the queue untouched), otherwise pops `N`
values off the front.  The outer `Option` models panic-freedom.
-/
def pop_queue (n : Nat) (queue : List Value) :
    Option (Except Error (List Value) × List Value) :=
  if queue.length < n then
    some (.error (.QueueTooShort n queue.length), queue)
  else
    (popFrontN n queue).map fun p => (.ok p.1, p.2)

/--
`VecDeque::rotate_left` as called by `Context::exec_token` for
`Token::Rotate`: moves the first `mid` elements to the back; Rust's
`rotate_left` panics (modelled as `none`) when `mid` exceeds the length.
-/
def rotate_left (queue : List Value) (mid : Nat) : Option (List Value) :=
  if mid ≤ queue.length then some (queue.drop mid ++ queue.take mid) else none

/--
The `Token::Rotate(num)` arm of `Context::exec_token`
(src/program/context.rs lines 210-213): `self.values.rotate_left(num)`,
performed directly on the queue with no length guard and no error path.
-/
def exec_rotate (queue : List Value) (num : Nat) : Option (List Value) :=
  rotate_left queue num

/-! ## `src/parse/err.rs` / `src/parse/token.rs` -/

/--
The parse `Error` as used by `src/parse/token.rs` (`Error::Empty`,
`Error::Unknown(text)`).
-/
inductive ParseError where
  | Empty
  | Unknown (slice : List Char)
  deriving DecidableEq, Repr

/-- `Check` (src/parse/token.rs): the token between `[` and `]`. -/
inductive Check where
  | Vowel
  | Conso
  | Lower
  | Upper
  deriving DecidableEq, Repr

/-- `Map` (src/parse/token.rs): the token between `{` and `}`. -/
inductive Map where
  | Lower
  | Upper
  | Swap
  deriving DecidableEq, Repr

/-- `Token` (src/parse/token.rs). -/
inductive Token where
  | In
  | Out
  | Split (s : Option (List Char))
  | Join
  | Concat
  | Copy
  | IsVowel
  | IsConso
  | IsLower
  | IsUpper
  | Rotate (n : Nat)
  | Map (m : Map)
  | Filter (c : Check)
  | Slice (r : EolinaRange)
  deriving DecidableEq, Repr

/-- Rust `char::is_ascii_whitespace`: space, tab, newline, form feed, carriage return. -/
def isAsciiWhitespace (ch : Char) : Bool :=
  ch = ' ' ∨ ch = '\t' ∨ ch = '\n' ∨ ch = Char.ofNat 12 ∨ ch = '\r'

/--
The `alt` of the nine single-character tags in `next_token`
(`<`, `>`, `.`, `~`, `*`, `v`, `c`, `_`, `^`); since every branch is a
one-character `tag`, the alternation is a membership test on the first
character.  Returns `(rest, matched char)`.
-/
def parseSingleTag (input : List Char) : Option (List Char × Char) :=
  match input with
  | ch :: rest =>
    if ch ∈ ['<', '>', '.', '~', '*', 'v', 'c', '_', '^'] then some (rest, ch) else none
  | [] => none

/--
The `double` parser `pair(tag("@"), digit0)` of `next_token`: `@` followed by
zero or more ASCII digits.  Returns `(rest, digit string)`.
-/
def parseRotateTag (input : List Char) : Option (List Char × List Char) :=
  match input with
  | '@' :: rest => some (rest.dropWhile Char.isDigit, rest.takeWhile Char.isDigit)
  | _ => none

/--
The inner quoted literal of the `split` parser:
`delimited(tag("\""), take_till(ch == '"' || ch == '/'), tag("\""))`.
-/
def parseQuoted (input : List Char) : Option (List Char × List Char) :=
  match input with
  | '"' :: rest =>
    let content := rest.takeWhile fun ch => ¬(ch = '"' ∨ ch = '/')
    match rest.dropWhile (fun ch => ¬(ch = '"' ∨ ch = '/')) with
    | '"' :: rest2 => some (rest2, content)
    | _ => none
  | _ => none

/--
The `split` parser of `next_token`:
`delimited(tag("/"), opt(quoted literal), tag("/"))`; `opt` consumes nothing
when the inner parser fails.
-/
def parseSplitTag (input : List Char) : Option (List Char × Option (List Char)) :=
  match input with
  | '/' :: rest =>
    match parseQuoted rest with
    | some (rest2, content) =>
      match rest2 with
      | '/' :: rest3 => some (rest3, some content)
      | _ => none
    | none =>
      match rest with
      | '/' :: rest2 => some (rest2, none)
      | _ => none
  | _ => none

/-- The `map` parser: `{` then one of `_`, `^`, `%` then `}`. -/
def parseMapTag (input : List Char) : Option (List Char × Char) :=
  match input with
  | '{' :: ch :: '}' :: rest =>
    if ch ∈ ['_', '^', '%'] then some (rest, ch) else none
  | _ => none

/-- The `filter` parser: `[` then one of `v`, `c`, `_`, `^` then `]`. -/
def parseFilterTag (input : List Char) : Option (List Char × Char) :=
  match input with
  | '[' :: ch :: ']' :: rest =>
    if ch ∈ ['v', 'c', '_', '^'] then some (rest, ch) else none
  | _ => none

/--
`pair(opt(tag("-")), digit1)` inside the `slice` parser: an optional minus
sign followed by at least one digit; fails (without the surrounding `opt`
consuming anything) if no digit follows.
-/
def parseSignedDigits (input : List Char) : Option (List Char × (Bool × List Char)) :=
  let signed : Bool × List Char :=
    match input with
    | '-' :: rest => (true, rest)
    | _ => (false, input)
  let digits := signed.2.takeWhile Char.isDigit
  if digits.isEmpty then none
  else some (signed.2.dropWhile Char.isDigit, (signed.1, digits))

/--
The `slice` parser of `next_token`:
`delimited(tag("|"), separated_pair(opt(signed), tag("."), opt(signed)), tag("|"))`.
-/
def parseSliceTag (input : List Char) :
    Option (List Char × (Option (Bool × List Char) × Option (Bool × List Char))) :=
  match input with
  | '|' :: rest =>
    let first : Option (Bool × List Char) × List Char :=
      match parseSignedDigits rest with
      | some (rest1, v) => (some v, rest1)
      | none => (none, rest)
    match first.2 with
    | '.' :: rest2 =>
      let second : Option (Bool × List Char) × List Char :=
        match parseSignedDigits rest2 with
        | some (rest3, v) => (some v, rest3)
        | none => (none, rest2)
      match second.2 with
      | '|' :: rest4 => some (rest4, (first.1, second.1))
      | _ => none
    | _ => none
  | _ => none

/-- Decimal value of a digit string, as `str::parse` computes it. -/
def natOfDigits (digits : List Char) : Nat :=
  digits.foldl (fun acc ch => acc * 10 + (ch.toNat - '0'.toNat)) 0

/--
`str::parse::<usize>` on a string of ASCII digits: fails exactly on the
empty string (`usize` is modelled as unbounded `Nat`, so overflow does not
occur in the model).
-/
def parseNat (digits : List Char) : Option Nat :=
  if digits.isEmpty then none else some (natOfDigits digits)

/--
`next_token` (src/parse/token.rs lines 193-342): skips leading ASCII
whitespace, then tries the `single`, `double` (`@`), `split`, `map`,
`filter` and `slice` parsers in the order of the source's `if let` chain.
Faithfully keeps the source's `tirmlen` variable, which is initialised to
`0` and never updated, and the source's per-parser consumed-length
arithmetic (`1 + digits`, `inner + 2` for quoted splits, `3` for map and
filter, `3 +` signed-digit widths for slices).
-/
def next_token (input : List Char) : Except ParseError (List Char × Token × Nat) :=
  let tirmlen := 0
  let input := input.dropWhile isAsciiWhitespace
  if input.isEmpty then .error .Empty
  else
    match parseSingleTag input with
    | some (rest, parsed) =>
      .ok (rest,
        (match parsed with
         | '<' => Token.In
         | '>' => Token.Out
         | '.' => Token.Join
         | '~' => Token.Concat
         | '*' => Token.Copy
         | 'v' => Token.IsVowel
         | 'c' => Token.IsConso
         | '_' => Token.IsLower
         | _ => Token.IsUpper),
        tirmlen + 1)
    | none =>
    match parseRotateTag input with
    | some (rest, second) =>
      .ok (rest, .Rotate ((parseNat second).getD 1), tirmlen + 1 + second.length)
    | none =>
    match parseSplitTag input with
    | some (rest, optional) =>
      .ok (rest, .Split optional,
        tirmlen + (match optional with | some str => str.length + 2 | none => 2))
    | none =>
    match parseMapTag input with
    | some (rest, parsed) =>
      .ok (rest,
        .Map (match parsed with | '_' => Map.Lower | '^' => Map.Upper | _ => Map.Swap),
        tirmlen + 3)
    | none =>
    match parseFilterTag input with
    | some (rest, parsed) =>
      .ok (rest,
        .Filter (match parsed with
          | 'v' => Check.Vowel
          | 'c' => Check.Conso
          | '_' => Check.Lower
          | _ => Check.Upper),
        tirmlen + 3)
    | none =>
    match parseSliceTag input with
    | some (rest, first, second) =>
      let parser : Bool × List Char → Bool × Nat := fun p => (p.1, natOfDigits p.2)
      let counter : Bool × List Char → Nat := fun p =>
        p.2.length + if p.1 then 1 else 0
      .ok (rest,
        .Slice (EolinaRange.components (first.map parser) (second.map parser)),
        tirmlen + 3 + (first.map counter).getD 0 + (second.map counter).getD 0)
    | none => .error (.Unknown input)

/-! ## `src/parse/gen.rs` -/

instance {ε α : Type} [DecidableEq ε] [DecidableEq α] : DecidableEq (Except ε α) := fun a b =>
  match a, b with
  | .ok x, .ok y =>
    if h : x = y then .isTrue (by rw [h]) else .isFalse (by intro he; cases he; exact h rfl)
  | .ok _, .error _ => .isFalse (by intro h; cases h)
  | .error _, .ok _ => .isFalse (by intro h; cases h)
  | .error x, .error y =>
    if h : x = y then .isTrue (by rw [h]) else .isFalse (by intro he; cases he; exact h rfl)

/-- `GeneratorState` for the token generators. -/
inductive GenState where
  | Yielded (t : Token) (len : Nat)
  | Complete (r : Except ParseError Unit)
  deriving DecidableEq, Repr

/-- `LazyGen` (src/parse/gen.rs): program text, remaining slice, completion flag. -/
structure LazyGen where
  program : List Char
  remaining : List Char
  completed : Bool
  deriving DecidableEq, Repr

/-- `LazyGen::new`. -/
def LazyGen.new (input : List Char) : LazyGen :=
  { program := input, remaining := input, completed := false }

/-- Rust `str::trim_matches(is_ascii_whitespace)`: trims both ends. -/
def trimWs (l : List Char) : List Char :=
  ((l.dropWhile isAsciiWhitespace).reverse.dropWhile isAsciiWhitespace).reverse

/--
`<LazyGen as Generator>::resume`: panics (modelled as `none`) when resumed
after completion; completes with `Ok` on empty remaining input (setting the
`completed` flag); otherwise scans one token, trimming whitespace off the
remainder, or completes with the parse error.
-/
def LazyGen.resume (this : LazyGen) : Option (LazyGen × GenState) :=
  if this.completed then
    none
  else if this.remaining.isEmpty then
    some ({ this with completed := true }, .Complete (.ok ()))
  else
    match next_token this.remaining with
    | .ok (rest, token, size) =>
      some ({ this with remaining := trimWs rest }, .Yielded token size)
    | .error err => some (this, .Complete (.error err))

/-- `LazyGen::reset`: restores `remaining` but does **not** clear `completed`. -/
def LazyGen.reset (this : LazyGen) : LazyGen :=
  { this with remaining := this.program }

/-- `EagerGen` (src/parse/gen.rs): program text, cursor, pre-collected tokens. -/
structure EagerGen where
  program : List Char
  yield_at : Nat
  tokens : List (Token × Nat)
  deriving DecidableEq, Repr

/--
The collection loop inside `EagerGen::new`: repeatedly resume the lazy
generator, pushing every yielded pair, until it completes.  `none` models
both a panic and fuel exhaustion (the loop in the source is unbounded).
-/
def eagerCollect (fuel : Nat) (lazy : LazyGen) (acc : List (Token × Nat)) :
    Option (Except ParseError (List (Token × Nat))) :=
  match fuel with
  | 0 => none
  | fuel + 1 =>
    match lazy.resume with
    | none => none
    | some (lazy', .Yielded t n) => eagerCollect fuel lazy' (acc ++ [(t, n)])
    | some (_, .Complete (.ok _)) => some (.ok acc)
    | some (_, .Complete (.error e)) => some (.error e)

/--
`EagerGen::new`: drives a fresh `LazyGen` to completion; fails with the parse
error if the lazy generator completes with one, otherwise stores the
collected tokens with the cursor at `0`.
-/
def EagerGen.new (fuel : Nat) (input : List Char) :
    Option (Except ParseError EagerGen) :=
  (eagerCollect fuel (LazyGen.new input) []).map fun res =>
    res.map fun toks => { program := input, yield_at := 0, tokens := toks }

/--
`<EagerGen as Generator>::resume`: compares the cursor with the buffer
length — greater panics (`none`), equal completes with `Ok`, less yields the
buffered pair and advances the cursor.
-/
def EagerGen.resume (this : EagerGen) : Option (EagerGen × GenState) :=
  if this.tokens.length < this.yield_at then
    none
  else if this.yield_at = this.tokens.length then
    some (this, .Complete (.ok ()))
  else
    match this.tokens.get? this.yield_at with
    | some yielded => some ({ this with yield_at := this.yield_at + 1 },
        .Yielded yielded.1 yielded.2)
    | none => none

/-- `EagerGen::reset`: rewinds the cursor to zero. -/
def EagerGen.reset (this : EagerGen) : EagerGen :=
  { this with yield_at := 0 }

/--
Driving a `LazyGen` stepwise to completion, collecting the yielded pairs and
the completion result; `none` models a panic or fuel exhaustion.
-/
def lazyRun (fuel : Nat) (lazy : LazyGen) :
    Option (List (Token × Nat) × Except ParseError Unit) :=
  match fuel with
  | 0 => none
  | fuel + 1 =>
    match lazy.resume with
    | none => none
    | some (lazy', .Yielded t n) =>
      (lazyRun fuel lazy').map fun p => ((t, n) :: p.1, p.2)
    | some (_, .Complete r) => some ([], r)

/--
Driving an `EagerGen` stepwise to completion, collecting the yielded pairs
and the completion result; `none` models a panic or fuel exhaustion.
-/
def eagerRun (fuel : Nat) (eager : EagerGen) :
    Option (List (Token × Nat) × Except ParseError Unit) :=
  match fuel with
  | 0 => none
  | fuel + 1 =>
    match eager.resume with
    | none => none
    | some (eager', .Yielded t n) =>
      (eagerRun fuel eager').map fun p => ((t, n) :: p.1, p.2)
    | some (_, .Complete r) => some ([], r)

/--
The specification's per-bound resolution rule (spec §4.4, claim C1), stated
in the spec's own words for comparison with the code's `as_range`: a missing
bound resolves to the default (`0` for start, `len` for end); `Start n` is
valid iff `n ≤ len` and maps to `n`; `End n` is valid iff `n ≤ len` and maps
to `len - n`; `none` here denotes an individually invalid bound.
-/
def specResolveBound (len dflt : Nat) : Option EolinaIndex → Option Nat
  | none => some dflt
  | some (.Start n) => if n ≤ len then some n else none
  | some (.End n) => if n ≤ len then some (len - n) else none

/-! ## Theorems -/

/--
C7: `End 0` (the parsed `-0` bound) is distinct from `Start 0` and
round-trips exactly as parsed: for every `len`, `End 0` resolves (via
`as_usize`) to the absolute index `len` while `Start 0` resolves to `0`;
`End 0` displays as `"-0"` while `Start 0` displays as `"0"`; the parser
component constructor maps `(from_back := true, 0)` to `End 0` (no
normalisation to `Start 0`), `next_token` parses the bound `-0` of a slice
token as `End 0`, and that token displays back as `|-0.|`.
-/
theorem end_zero_distinct_and_roundtrips :
    EolinaIndex.End 0 ≠ EolinaIndex.Start 0
    ∧ (∀ len : Nat, (EolinaIndex.End 0).as_usize len = .ok len
        ∧ (EolinaIndex.Start 0).as_usize len = .ok 0)
    ∧ (EolinaIndex.End 0).displayStr = "-0"
    ∧ (EolinaIndex.Start 0).displayStr = "0"
    ∧ EolinaIndex.from_components true 0 = .End 0
    ∧ next_token "|-0.|".toList
        = .ok ([], .Slice { start := some (.End 0), «end» := none }, 5)
    ∧ EolinaRange.displayStr { start := some (.End 0), «end» := none } = "|-0.|" := by
  refine ⟨by decide, fun len => ⟨?_, ?_⟩, by decide, by decide, by decide, by decide, by decide⟩
  · simp [EolinaIndex.as_usize]
  · simp [EolinaIndex.as_usize]

/--
C4: `concat` appends two `String`s or two `StringVec`s; any pairing that
involves a `Bool` is an `ArgMismatch` whose expected kinds are
`[String, StringVec]` and whose reported actual kind is the *other*
operand's kind (both arms of the source pass `x.kind()` for the non-matched
operand; for `Bool`/`Bool` the first arm reports `Bool`); a `String` paired
with a `StringVec` (in either order) is a `Mismatch(leftKind, rightKind)`.
-/
theorem concat_cases :
    (∀ s1 s2, concat (.String s1) (.String s2) = .ok (.String (s1 ++ s2)))
    ∧ (∀ v1 v2, concat (.StringVec v1) (.StringVec v2) = .ok (.StringVec (v1 ++ v2)))
    ∧ (∀ s b, concat (.String s) (.Bool b)
        = .error (.ArgMismatch [.String, .StringVec] .String))
    ∧ (∀ v b, concat (.StringVec v) (.Bool b)
        = .error (.ArgMismatch [.String, .StringVec] .StringVec))
    ∧ (∀ b1 b2, concat (.Bool b1) (.Bool b2)
        = .error (.ArgMismatch [.String, .StringVec] .Bool))
    ∧ (∀ b s, concat (.Bool b) (.String s)
        = .error (.ArgMismatch [.String, .StringVec] .String))
    ∧ (∀ b v, concat (.Bool b) (.StringVec v)
        = .error (.ArgMismatch [.String, .StringVec] .StringVec))
    ∧ (∀ s v, concat (.String s) (.StringVec v)
        = .error (.Mismatch .String .StringVec))
    ∧ (∀ v s, concat (.StringVec v) (.String s)
        = .error (.Mismatch .StringVec .String)) := by
  refine ⟨fun _ _ => rfl, fun _ _ => rfl, fun _ _ => rfl, fun _ _ => rfl, fun _ _ => rfl,
    fun _ _ => rfl, fun _ _ => rfl, fun _ _ => rfl, fun _ _ => rfl⟩

/-- Popping the front `n` times succeeds whenever the queue is long enough,
yielding the first `n` values and the rest of the queue. -/
theorem popFrontN_of_le (n : Nat) (queue : List Value) (h : n ≤ queue.length) :
    popFrontN n queue = some (queue.take n, queue.drop n) := by
  induction n generalizing queue with
  | zero => simp [popFrontN]
  | succ n ih =>
    cases queue with
    | nil => simp at h
    | cons v rest =>
      have : n ≤ rest.length := by simpa using h
      simp [popFrontN, ih rest this]

/--
C5: whenever a token requires `n` values and the queue holds fewer,
`pop_queue` returns `QueueTooShort(n, have)` with `have` the current queue
length and leaves the queue unchanged; it never panics for any `n` and any
queue (the `unwrap` in the popping loop is always reached with enough
elements), and with enough elements it pops exactly the first `n` values.
-/
theorem pop_queue_spec (n : Nat) (queue : List Value) :
    (queue.length < n →
      pop_queue n queue = some (.error (.QueueTooShort n queue.length), queue))
    ∧ pop_queue n queue ≠ none
    ∧ (n ≤ queue.length →
      pop_queue n queue = some (.ok (queue.take n), queue.drop n)) := by
  refine ⟨fun h => ?_, ?_, fun h => ?_⟩
  · simp [pop_queue, h]
  · by_cases h : queue.length < n
    · simp [pop_queue, h]
    · simp [pop_queue, h, popFrontN_of_le n queue (Nat.le_of_not_lt h)]
  · have h' : ¬queue.length < n := Nat.not_lt.mpr h
    simp [pop_queue, h', popFrontN_of_le n queue h]

/--
Witness for C5: a queue holding one value, asked for two, reports
`QueueTooShort 2 1` and is left unchanged.
-/
theorem pop_queue_spec_witness :
    pop_queue 2 [Value.Bool true]
      = some (.error (.QueueTooShort 2 1), [Value.Bool true]) :=
  (pop_queue_spec 2 [Value.Bool true]).1 (by decide)

/--
C6 counterexample: dispatching `Rotate 2` on a queue holding a single value
panics (`VecDeque::rotate_left` panics when `mid` exceeds the length, and
the `Token::Rotate` arm passes the count through unguarded), refuting the
claim that the dispatch always succeeds even when the count exceeds the
number of queued values.
-/
theorem exec_rotate_panics :
    exec_rotate [Value.Bool true] 2 = none := by decide

/--
C6 (amended): dispatching `Rotate n` succeeds with no error path and
rotates the FIFO queue left by `n` positions whenever `n` does not exceed
the queue length; for larger `n` the underlying `rotate_left` panics.
-/
theorem exec_rotate_spec (queue : List Value) (n : Nat) (h : n ≤ queue.length) :
    exec_rotate queue n = some (queue.drop n ++ queue.take n) := by
  simp [exec_rotate, rotate_left, h]

/--
Witness for the amended C6: rotating a two-value queue by one moves the
front value to the back.
-/
theorem exec_rotate_spec_witness :
    exec_rotate [Value.Bool true, Value.Bool false] 1
      = some [Value.Bool false, Value.Bool true] :=
  exec_rotate_spec [Value.Bool true, Value.Bool false] 1 (by decide)

/--
C9 counterexample: displaying the two-element `StringVec` `["a", "b"]`
produces `"a\n b"` — the first element, a newline, then the second element
preceded by a space — which contains no bracket at all, refuting the claim
that a `StringVec` renders as a bracketed, comma-joined list.
-/
theorem displayValue_not_bracketed :
    displayValue (.StringVec [['a'], ['b']]) = "a\n b"
    ∧ '[' ∉ (displayValue (.StringVec [['a'], ['b']])).data := by
  constructor
  · rfl
  · intro h
    simp [displayValue, String.mk] at h

/--
C9 (amended): displaying a `Value` renders a `String` raw and a `Bool` as
`true`/`false`; a `StringVec` renders as the concatenation of its first
element, a newline character, and each remaining element preceded by a
single space character (the empty `StringVec` renders as the empty string)
— not as a bracketed, comma-joined list.
-/
theorem displayValue_spec :
    (∀ s, displayValue (.String s) = String.mk s)
    ∧ (∀ b, displayValue (.Bool b) = if b then "true" else "false")
    ∧ (displayValue (.StringVec []) = "")
    ∧ (∀ first rest, (displayValue (.StringVec (first :: rest))).data
        = first ++ '\n' :: (rest.map fun e => ' ' :: e).flatten) := by
  refine ⟨fun s => rfl, fun b => rfl, rfl, fun first rest => ?_⟩
  simp [displayValue, String.data_append, String.data_join]
  induction rest with
  | nil => rfl
  | cons r rs ih =>
    simp only [List.map_cons, List.flatten_cons] at ih ⊢
    simp [String.data_append] at ih ⊢
    exact ih

/--
The code's bound resolution (the `idx_map` / `abs_check_map` composition
inside `as_range`, with the per-side default) agrees with the
specification's rule `specResolveBound`: it returns `.ok k` exactly when the
spec resolves the bound to `k`, and `.error` exactly when the spec rejects
the bound.
-/
theorem bound_link (len dflt : Nat) (o : Option EolinaIndex) :
    (∃ k, ((o.map (idx_map len)).map (abs_check_map len)).getD (.ok dflt) = .ok k
        ∧ specResolveBound len dflt o = some k)
    ∨ (∃ i, ((o.map (idx_map len)).map (abs_check_map len)).getD (.ok dflt) = .error i
        ∧ specResolveBound len dflt o = none) := by
  cases o with
  | none => exact .inl ⟨dflt, rfl, rfl⟩
  | some idx =>
    cases idx with
    | Start n =>
      by_cases h : n ≤ len
      · refine .inl ⟨n, ?_, by simp [specResolveBound, h]⟩
        simp only [Option.map_some', Option.getD_some, abs_check_map, idx_map]
        rw [if_pos (by omega)]
        congr 1
      · refine .inr ⟨(n : Int), ?_, by simp [specResolveBound, h]⟩
        simp only [Option.map_some', Option.getD_some, abs_check_map, idx_map]
        rw [if_neg (by omega)]
    | End n =>
      by_cases h : n ≤ len
      · refine .inl ⟨len - n, ?_, by simp [specResolveBound, h]⟩
        simp only [Option.map_some', Option.getD_some, abs_check_map, idx_map]
        rw [if_pos (by omega)]
        congr 1
        omega
      · refine .inr ⟨(len : Int) - (n : Int), ?_, by simp [specResolveBound, h]⟩
        simp only [Option.map_some', Option.getD_some, abs_check_map, idx_map]
        rw [if_neg (by omega)]

/--
C1: for every length and every `EolinaRange`, `as_range` resolves the two
bounds independently exactly as the spec's rule `specResolveBound` says
(start defaults to `0`, end to `len`, `Start n ↦ n` and `End n ↦ len - n`
each valid iff `n ≤ len`): if either bound is individually out of `0..=len`
the result is `OutOfTargetRange` (carrying the given range and the valid
range `0..len`), else if the resolved start exceeds the resolved end it is
`IncompatibleBounds` (carrying the resolved and the valid range), and
otherwise the concrete resolved pair; moreover `slice` on a `String` or
`StringVec` value resolves the range against that value's length and
returns the corresponding subslice, propagating `as_range`'s error.
-/
theorem as_range_spec (len : Nat) (r : EolinaRange) :
    (match specResolveBound len 0 r.start, specResolveBound len len r.«end» with
     | some s, some e =>
       if s ≤ e then r.as_range len = .ok (s, e)
       else r.as_range len
         = .error (.IncompatibleBounds (.ofIntRange (s : Int) (e : Int))
             (.ofNatRange 0 len))
     | _, _ =>
       ∃ abs, r.as_range len = .error (.OutOfTargetRange r abs (.ofNatRange 0 len)))
    ∧ (∀ s : List Char, slice (.String s) r
        = ((r.as_range s.length).map fun p =>
            Value.String ((s.drop p.1).take (p.2 - p.1))).mapError Error.Range)
    ∧ (∀ v : List (List Char), slice (.StringVec v) r
        = ((r.as_range v.length).map fun p =>
            Value.StringVec ((v.drop p.1).take (p.2 - p.1))).mapError Error.Range) := by
  obtain ⟨os, oe⟩ := r
  refine ⟨?_, fun s => ?_, fun v => ?_⟩
  · rcases bound_link len 0 os with ⟨s, hA, hS⟩ | ⟨i, hA, hS⟩ <;>
      rcases bound_link len len oe with ⟨e, hB, hT⟩ | ⟨j, hB, hT⟩ <;>
      simp only [EolinaRange.as_range, hA, hB, hS, hT]
    · by_cases hse : s ≤ e
      · simp [hse, Nat.not_lt.mpr hse]
      · simp [hse, Nat.lt_of_not_le hse]
    · exact ⟨_, rfl⟩
    · exact ⟨_, rfl⟩
    · exact ⟨_, rfl⟩
  · cases h : EolinaRange.as_range ⟨os, oe⟩ s.length with
    | ok p => simp [slice, h, Except.mapError, Except.map]
    | error e => simp [slice, h, Except.mapError, Except.map]
  · cases h : EolinaRange.as_range ⟨os, oe⟩ v.length with
    | ok p => simp [slice, h, Except.mapError, Except.map]
    | error e => simp [slice, h, Except.mapError, Except.map]

/--
C2: evaluating `next_token` at the quoted-split input `/"ab"/` and at the
whitespace-prefixed input `" <"`.  The source computes the consumed length
of a quoted split as `inner.len() + 2` — counting the two slashes but not
the two quotes — so `/"ab"/` (six bytes) reports length 4, where the spec
and the source's own unit test (`parse::token::test::split`) require 6; and
the `tirmlen` variable meant to account for skipped leading whitespace is
initialised to 0 and never updated, so `" <"` reports length 1 instead of
the 2 bytes consumed from the original untrimmed input.
-/
theorem next_token_consumed_len_bug :
    next_token "/\"ab\"/".toList = .ok ([], .Split (some ['a', 'b']), 4)
    ∧ next_token " <".toList = .ok ([], .In, 1) := by
  constructor
  · rfl
  · rfl

/--
C8 counterexample: `next_token "@0"` yields `Rotate 0` (with consumed
length 2), not `Rotate 1`: the source's `second.parse().unwrap_or(1)` only
substitutes 1 when parsing *fails* (no digits), and `"0"` parses
successfully to 0.
-/
theorem next_token_rotate_zero :
    next_token "@0".toList = .ok ([], .Rotate 0, 2)
    ∧ Token.Rotate 0 ≠ Token.Rotate 1 := by
  constructor
  · rfl
  · decide

/--
C8 (amended): for every input starting with `@`, `next_token` yields
`Rotate count` where `count` defaults to 1 exactly when no digits follow
the `@`; when digits are present, `count` is their parsed decimal value
(so `@0` yields `Rotate 0`), and the consumed length is 1 plus the number
of digit bytes.
-/
theorem next_token_rotate_spec (r : List Char) :
    next_token ('@' :: r)
      = .ok (r.dropWhile Char.isDigit,
          .Rotate (if (r.takeWhile Char.isDigit).isEmpty then 1
                   else natOfDigits (r.takeWhile Char.isDigit)),
          1 + (r.takeWhile Char.isDigit).length) := by
  have hws : isAsciiWhitespace '@' = false := by decide
  have hmem : ¬('@' ∈ ['<', '>', '.', '~', '*', 'v', 'c', '_', '^']) := by decide
  simp only [next_token, List.dropWhile_cons, hws, Bool.false_eq_true, if_false,
    List.isEmpty_cons, parseSingleTag, hmem, parseRotateTag, parseNat]
  cases h : (r.takeWhile Char.isDigit).isEmpty <;> simp [h, Nat.add_comm]

/--
The `EagerGen::new` collection loop is the lazy generator driven stepwise:
collecting with accumulator `acc` returns `acc ++` the pairs the lazy
generator yields, and fails (or runs out of fuel / panics) in exactly the
same cases.
-/
theorem eagerCollect_eq_lazyRun (fuel : Nat) :
    ∀ (lazy : LazyGen) (acc : List (Token × Nat)),
    eagerCollect fuel lazy acc
      = (lazyRun fuel lazy).map fun p => p.2.map fun _ => acc ++ p.1 := by
  induction fuel with
  | zero => intro lazy acc; rfl
  | succ fuel ih =>
    intro lazy acc
    cases h : lazy.resume with
    | none => simp only [eagerCollect, lazyRun, h]; rfl
    | some p =>
      obtain ⟨lazy', st⟩ := p
      cases st with
      | Yielded t n =>
        simp only [eagerCollect, lazyRun, h]
        rw [ih]
        cases h2 : lazyRun fuel lazy' with
        | none => rfl
        | some q =>
          obtain ⟨toks, res⟩ := q
          cases res with
          | ok u => cases u; simp
          | error e => simp [Except.map]
      | Complete r =>
        cases r with
        | ok u => cases u; simp only [eagerCollect, lazyRun, h]; simp [Except.map]
        | error e => simp only [eagerCollect, lazyRun, h]; simp [Except.map]

/--
Driving an `EagerGen` whose cursor sits at `i` to completion yields exactly
the buffered pairs from `i` on, completing with `Ok`, provided the fuel
exceeds the number of remaining pairs.
-/
theorem eagerRun_drop (toks : List (Token × Nat)) (prog : List Char) :
    ∀ (fuel i : Nat), i ≤ toks.length → toks.length - i < fuel →
    eagerRun fuel ⟨prog, i, toks⟩ = some (toks.drop i, .ok ()) := by
  intro fuel
  induction fuel with
  | zero => intro i h1 h2; omega
  | succ fuel ih =>
    intro i h1 h2
    rcases Nat.lt_or_ge i toks.length with hlt | hge
    · have hget : toks.get? i = some toks[i] :=
        List.get?_eq_getElem? toks i ▸ List.getElem?_eq_getElem hlt
      simp only [eagerRun, EagerGen.resume,
        if_neg (by omega : ¬toks.length < i),
        if_neg (by omega : ¬i = toks.length), hget]
      rw [ih (i + 1) (by omega) (by omega)]
      simp only [Option.map_some', Prod.mk.eta]
      rw [List.drop_eq_getElem_cons hlt]
    · have heq : i = toks.length := by omega
      subst heq
      simp only [eagerRun, EagerGen.resume]
      simp [List.drop_length]

/--
C3: for every program text and every fuel bound, driving the eager and the
lazy generator with the same fuel gives matching outcomes: when eager
construction succeeds its buffered sequence — and the full sequence it then
yields before completing — equals, element for element and in order, the
sequence the lazy generator yields when driven stepwise to completion; and
eager construction fails with exactly the parse error with which the lazy
generator completes.
-/
theorem eager_lazy_equivalence (input : List Char) (fuel : Nat) :
    match EagerGen.new fuel input, lazyRun fuel (LazyGen.new input) with
    | some (.ok eager), some (toks, res) =>
        eager.tokens = toks ∧ res = .ok ()
          ∧ eagerRun (toks.length + 1) eager = some (toks, .ok ())
    | some (.error e), some (_, res) => res = .error e
    | none, none => True
    | _, _ => False := by
  have h := eagerCollect_eq_lazyRun fuel (LazyGen.new input) []
  simp only [EagerGen.new, h]
  cases h2 : lazyRun fuel (LazyGen.new input) with
  | none => simp
  | some p =>
    obtain ⟨toks, res⟩ := p
    cases res with
    | ok u =>
      cases u
      simp only [Option.map_some', Except.map, List.nil_append]
      refine ⟨trivial, trivial, ?_⟩
      exact eagerRun_drop toks input (toks.length + 1) 0 (Nat.zero_le _) (by omega)
    | error e => simp [Except.map]

/--
C10: once a `LazyGen` has `completed = true` — which `resume` sets exactly
when it is resumed with empty remaining input, completing with `Ok` — every
subsequent `resume` panics, and `reset()` does not help: it restores
`remaining` to the full program but leaves the `completed` flag set, so a
successfully completed `LazyGen` can never yield tokens again.  In
contrast, `EagerGen::reset` fully restores the eager generator: after a
reset it yields its entire buffered sequence again and completes with `Ok`.
-/
theorem lazy_completed_is_sticky :
    (∀ lazy : LazyGen, lazy.completed = true → lazy.resume = none)
    ∧ (∀ lazy : LazyGen, lazy.completed = false → lazy.remaining = [] →
        lazy.resume = some ({ lazy with completed := true }, .Complete (.ok ())))
    ∧ (∀ lazy : LazyGen,
        lazy.reset.completed = lazy.completed ∧ lazy.reset.remaining = lazy.program)
    ∧ (∀ lazy : LazyGen, lazy.completed = true → lazy.reset.resume = none)
    ∧ (∀ eager : EagerGen,
        eagerRun (eager.tokens.length + 1) eager.reset
          = some (eager.tokens, .ok ())) := by
  refine ⟨fun lazy h => ?_, fun lazy h1 h2 => ?_, fun lazy => ⟨rfl, rfl⟩,
    fun lazy h => ?_, fun eager => ?_⟩
  · simp [LazyGen.resume, h]
  · simp [LazyGen.resume, h1, h2]
  · simp [LazyGen.resume, LazyGen.reset, h]
  · have := eagerRun_drop eager.tokens eager.program (eager.tokens.length + 1) 0
      (Nat.zero_le _) (by omega)
    simpa [EagerGen.reset] using this

/--
Witness for C10: a concrete completed lazy generator — `resume` panics, and
still panics after `reset()`; a concrete eager generator replays its buffer
after reset.
-/
theorem lazy_completed_is_sticky_witness :
    (LazyGen.mk ['<'] [] true).resume = none
    ∧ (LazyGen.mk ['<'] [] true).reset.resume = none
    ∧ eagerRun 2 (EagerGen.mk ['<'] 1 [(.In, 1)]).reset
      = some ([(.In, 1)], .ok ()) :=
  ⟨lazy_completed_is_sticky.1 (LazyGen.mk ['<'] [] true) rfl,
   lazy_completed_is_sticky.2.2.2.1 (LazyGen.mk ['<'] [] true) rfl,
   lazy_completed_is_sticky.2.2.2.2 (EagerGen.mk ['<'] 1 [(.In, 1)])⟩

end Eolina
